import Mathlib

/-!
# Verification of the quiz session engine (`src/index.js`)

Shallow embedding of the quiz session core: the question bank, the
in-memory session state, the adaptive next-question selector
(`getNextQuestion`), the answer-evaluation route
(`POST /quiz/answer/:quizId`), the session-start route
(`POST /quiz/start`) and the stats aggregator (`updateOverallStats`).

Modelling conventions:
* identifiers (question ids, user ids) are `Nat`; quiz ids are `String`;
* JavaScript truthiness on strings (`session.category && ...`,
  `q.category && ...`, `category || "general"`) is made explicit as a
  comparison with the empty string;
* `Math.floor(Math.random() * len)` (a uniformly random index below
  `len`) is modelled by an explicit `rand : Nat` parameter reduced
  `mod` the length of the final candidate list;
* the session store (the global `sessions` object) is an association
  list `List (String × Session)`; route handlers return the resulting
  store alongside the response, returning it unchanged on an error
  response (the JS code `return`s before any mutation on those paths).
-/

namespace Quiz

/-- A record of the question bank (`data.json`, schema per the data
model: id, prompt, options, correct answer, difficulty, optional
category, optional point value). -/
structure Question where
  id : Nat
  question : String
  options : List String
  answer : String
  difficulty : Int
  category : Option String
  points : Option Nat
deriving Repr, DecidableEq

/-- The projection of a question that `getNextQuestion` returns to the
client: `{ id, question, options }` (answer and points do not leak). -/
structure QuestionView where
  id : Nat
  question : String
  options : List String
deriving Repr, DecidableEq

def questionView (q : Question) : QuestionView :=
  { id := q.id, question := q.question, options := q.options }

/-- One live quiz session, as created by `POST /quiz/start`
(`sessions[quizId] = { userId, category, score, ... }`). -/
structure Session where
  userId : Nat
  category : String
  score : Nat
  correct : Nat
  wrong : Nat
  seenIds : List Nat
  currentDifficulty : Int
  currentStreak : Nat
  bestStreakInGame : Nat
  isCompleted : Bool
deriving Repr, DecidableEq

/-- `const QUIZ_LIMIT = 20`. -/
def QUIZ_LIMIT : Nat := 20

/-- `String.prototype.toLowerCase` as used on category labels (ASCII
case mapping), written with structural recursion so that concrete
instances evaluate. -/
def lowerCase (s : String) : String :=
  String.mk (s.data.map Char.toLower)

/-- The category predicate of `getNextQuestion` step 2:
`q.category && q.category.toLowerCase() === session.category.toLowerCase()`.
A missing or empty (falsy) question category never matches. -/
def categoryMatchB (sessionCategory : String) (q : Question) : Bool :=
  match q.category with
  | none => false
  | some c => c != "" && lowerCase c == lowerCase sessionCategory

/-- Steps 1 and 2 of `getNextQuestion`: drop questions already seen,
then, when the session's category is truthy and not `'general'`
(case-insensitively), keep only questions of a matching category. -/
def availableQuestions (bank : List Question) (s : Session) : List Question :=
  let avail := bank.filter (fun q => !(s.seenIds.contains q.id))
  if s.category != "" && lowerCase s.category != "general" then
    avail.filter (categoryMatchB s.category)
  else
    avail

/-- Step 3 of `getNextQuestion`: tiered difficulty preference.
Exact difficulty match first; if that tier is empty, distance exactly 1
(`Math.abs(q.difficulty - session.currentDifficulty) === 1`); if that
is also empty, the whole remaining pool. -/
def preferredQuestions (s : Session) (avail : List Question) : List Question :=
  let preferred := avail.filter (fun q => q.difficulty == s.currentDifficulty)
  let preferred :=
    if preferred.length = 0 then
      avail.filter (fun q => (q.difficulty - s.currentDifficulty).natAbs == 1)
    else preferred
  let preferred := if preferred.length = 0 then avail else preferred
  preferred

/-- `getNextQuestion(session)` (src/index.js lines 94-119).  `rand`
stands for the uniformly random draw
`Math.floor(Math.random() * preferredQuestions.length)`; the code
indexes the final tier at that position.  Returns `none` exactly where
the code returns `null`. -/
def getNextQuestion (bank : List Question) (s : Session) (rand : Nat) :
    Option QuestionView :=
  let avail := availableQuestions bank s
  if avail.length = 0 then
    none
  else
    let preferred := preferredQuestions s avail
    match preferred[rand % preferred.length]? with
    | some q => some (questionView q)
    | none => none

/-- The session created by `POST /quiz/start`:
`category: category || 'general'`, score 0, difficulty 3, empty
shown-set, not completed. -/
def newSession (userId : Nat) (category : Option String) : Session :=
  { userId := userId
    category := match category with
      | none => "general"
      | some c => if c = "" then "general" else c
    score := 0
    correct := 0
    wrong := 0
    seenIds := []
    currentDifficulty := 3
    currentStreak := 0
    bestStreakInGame := 0
    isCompleted := false }

/-- `POST /quiz/start` after session creation: fetch the first question;
on `null` answer 404 (modelled `none`), otherwise push its id onto
`seenIds` and return question and session. -/
def startQuiz (bank : List Question) (userId : Nat) (category : Option String)
    (rand : Nat) : Option (QuestionView × Session) :=
  let s := newSession userId category
  match getNextQuestion bank s rand with
  | none => none
  | some q => some (q, { s with seenIds := s.seenIds ++ [q.id] })

/-- The two 404 branches of `POST /quiz/answer/:quizId`. -/
inductive AnswerError where
  /-- `'Quiz session not found, not yours, or already completed.'` -/
  | sessionUnavailable
  /-- `'Question not found.'` -/
  | questionNotFound
deriving Repr, DecidableEq

/-- The literal error message the route serialises for each failure. -/
def answerErrorMessage : AnswerError → String
  | .sessionUnavailable => "Quiz session not found, not yours, or already completed."
  | .questionNotFound => "Question not found."

/-- A successful answer response: either final stats (quiz completed)
or the next question plus the running score. -/
inductive AnswerOutcome where
  | completed (score correct wrong bestStreak : Nat)
  | next (q : QuestionView) (yourScore : Nat)
deriving Repr, DecidableEq

/-- `question.points || 10`: JavaScript `||` substitutes 10 both when
`points` is absent and when it is the falsy number 0. -/
def pointsOrDefault : Option Nat → Nat
  | none => 10
  | some v => if v = 0 then 10 else v

/-- The `isCorrect` branch of the answer route: on correct add
`question.points || 10`, bump correct and streak,
`currentDifficulty = Math.min(5, d + 1)`; on wrong bump wrong, zero the
streak, `currentDifficulty = Math.max(1, d - 1)`. -/
def scoreAnswer (question : Question) (answer : String) (s : Session) : Session :=
  if question.answer = answer then
    { s with
      score := s.score + pointsOrDefault question.points
      correct := s.correct + 1
      currentStreak := s.currentStreak + 1
      currentDifficulty := min 5 (s.currentDifficulty + 1) }
  else
    { s with
      wrong := s.wrong + 1
      currentStreak := 0
      currentDifficulty := max 1 (s.currentDifficulty - 1) }

/-- `scoreAnswer` followed by
`session.bestStreakInGame = Math.max(session.bestStreakInGame, session.currentStreak)`. -/
def evalAnswer (question : Question) (answer : String) (s : Session) : Session :=
  let s := scoreAnswer question answer s
  { s with bestStreakInGame := max s.bestStreakInGame s.currentStreak }

/-- The body of `POST /quiz/answer/:quizId` for a session that was
found in the store (src/index.js lines 199-264): the owner/completed
guard, the bank lookup, scoring, the `QUIZ_LIMIT` check, and the
next-question fetch (appending its id when one exists). -/
def answerSession (bank : List Question) (session : Session) (userId : Nat)
    (questionId : Nat) (answer : String) (rand : Nat) :
    Except AnswerError (AnswerOutcome × Session) :=
  if session.userId != userId || session.isCompleted then
    .error .sessionUnavailable
  else
    match bank.find? (fun q => q.id == questionId) with
    | none => .error .questionNotFound
    | some question =>
      let session := evalAnswer question answer session
      if QUIZ_LIMIT ≤ session.seenIds.length then
        let session := { session with isCompleted := true }
        .ok (.completed session.score session.correct session.wrong
              session.bestStreakInGame, session)
      else
        match getNextQuestion bank session rand with
        | none =>
          let session := { session with isCompleted := true }
          .ok (.completed session.score session.correct session.wrong
                session.bestStreakInGame, session)
        | some nq =>
          let session := { session with seenIds := session.seenIds ++ [nq.id] }
          .ok (.next nq session.score, session)

/-- `sessions[quizId]` on the association-list store. -/
def lookupSession (sessions : List (String × Session)) (quizId : String) :
    Option Session :=
  (sessions.find? (fun p => p.1 == quizId)).map (fun p => p.2)

/-- Writing the mutated session back under its key. -/
def updateStore (sessions : List (String × Session)) (quizId : String)
    (s : Session) : List (String × Session) :=
  sessions.map (fun p => if p.1 = quizId then (quizId, s) else p)

/-- The full `POST /quiz/answer/:quizId` handler over the store:
`!session` joins the owner/completed checks in the first guard; error
responses leave the store untouched. -/
def postAnswer (bank : List Question) (sessions : List (String × Session))
    (quizId : String) (userId : Nat) (questionId : Nat) (answer : String)
    (rand : Nat) :
    Except AnswerError AnswerOutcome × List (String × Session) :=
  match lookupSession sessions quizId with
  | none => (.error .sessionUnavailable, sessions)
  | some session =>
    match answerSession bank session userId questionId answer rand with
    | .error e => (.error e, sessions)
    | .ok (out, session) => (.ok out, updateStore sessions quizId session)

/-- Per-user durable stats record (`StatsSchema` fields touched by
`updateOverallStats`; all default to 0). -/
structure StatsRecord where
  gamesPlayed : Nat
  totalScore : Nat
  totalCorrect : Nat
  totalWrong : Nat
  bestStreak : Nat
deriving Repr, DecidableEq

/-- `updateOverallStats(session)`: the MongoDB
`findOneAndUpdate({userId}, {$inc: {...}, $max: {bestStreak}}, {upsert: true})`.
With `upsert`, a missing record behaves as the all-zero defaults of the
schema, to which `$inc` adds and `$max` maximises. -/
def updateOverallStats (existing : Option StatsRecord) (s : Session) :
    StatsRecord :=
  let r := existing.getD
    { gamesPlayed := 0, totalScore := 0, totalCorrect := 0, totalWrong := 0,
      bestStreak := 0 }
  { gamesPlayed := r.gamesPlayed + 1
    totalScore := r.totalScore + s.score
    totalCorrect := r.totalCorrect + s.correct
    totalWrong := r.totalWrong + s.wrong
    bestStreak := max r.bestStreak s.bestStreakInGame }

/-- Result of the session-delete operation. -/
inductive DeleteResult where
  | ack
  | notFound
deriving Repr, DecidableEq

/-- Modelled from the spec: the repository's source files contain no
delete route; only the spec declares `delete(sessionId, userId) → ack |
NOT_FOUND` with an ownership check (§4.4, §6). An owner's delete
removes the session from the store and acknowledges; an unknown session
(or one owned by someone else, which the ack/NOT_FOUND signature folds
into NOT_FOUND) is reported NOT_FOUND and leaves the store unchanged. -/
def deleteSession (sessions : List (String × Session)) (quizId : String)
    (userId : Nat) : DeleteResult × List (String × Session) :=
  match lookupSession sessions quizId with
  | none => (.notFound, sessions)
  | some s =>
    if s.userId = userId then
      (.ack, sessions.filter (fun p => p.1 != quizId))
    else
      (.notFound, sessions)

/-- Sessions reachable through the engine: created by
`POST /quiz/start` and then stepped only by successful
`POST /quiz/answer` evaluations. -/
inductive Reachable (bank : List Question) : Session → Prop where
  | start (userId : Nat) (category : Option String) (rand : Nat)
      (q : QuestionView) (s : Session)
      (h : startQuiz bank userId category rand = some (q, s)) :
      Reachable bank s
  | answer (s : Session) (userId questionId : Nat) (ans : String) (rand : Nat)
      (out : AnswerOutcome) (s' : Session)
      (hs : Reachable bank s)
      (h : answerSession bank s userId questionId ans rand = .ok (out, s')) :
      Reachable bank s'

end Quiz

deriving instance DecidableEq for Except

/-! ## Basic lemmas about the selector -/

namespace Quiz

theorem mem_availableQuestions {bank : List Question} {s : Session}
    {q : Question} (h : q ∈ availableQuestions bank s) :
    q ∈ bank ∧ s.seenIds.contains q.id = false := by
  unfold availableQuestions at h
  dsimp only at h
  split at h
  · rcases List.mem_filter.mp h with ⟨h1, -⟩
    rcases List.mem_filter.mp h1 with ⟨hb, hc⟩
    exact ⟨hb, by simpa using hc⟩
  · rcases List.mem_filter.mp h with ⟨hb, hc⟩
    exact ⟨hb, by simpa using hc⟩

theorem mem_availableQuestions_category {bank : List Question} {s : Session}
    {q : Question}
    (hcat : (s.category != "" && lowerCase s.category != "general") = true)
    (h : q ∈ availableQuestions bank s) :
    categoryMatchB s.category q = true := by
  unfold availableQuestions at h
  dsimp only at h
  rw [if_pos hcat] at h
  exact (List.mem_filter.mp h).2

theorem mem_preferredQuestions {s : Session} {avail : List Question}
    {q : Question} (h : q ∈ preferredQuestions s avail) : q ∈ avail := by
  unfold preferredQuestions at h
  dsimp only at h
  by_cases h1 : (avail.filter (fun q => q.difficulty == s.currentDifficulty)).length = 0
  · rw [if_pos h1] at h
    by_cases h2 : (avail.filter
        (fun q => (q.difficulty - s.currentDifficulty).natAbs == 1)).length = 0
    · rw [if_pos h2] at h
      exact h
    · rw [if_neg h2] at h
      exact (List.mem_filter.mp h).1
  · rw [if_neg h1, if_neg h1] at h
    exact (List.mem_filter.mp h).1

theorem preferredQuestions_ne_nil {s : Session} {avail : List Question}
    (h : avail ≠ []) : preferredQuestions s avail ≠ [] := by
  unfold preferredQuestions
  dsimp only
  by_cases h1 : (avail.filter (fun q => q.difficulty == s.currentDifficulty)).length = 0
  · rw [if_pos h1]
    by_cases h2 : (avail.filter
        (fun q => (q.difficulty - s.currentDifficulty).natAbs == 1)).length = 0
    · rw [if_pos h2]
      exact h
    · rw [if_neg h2]
      exact fun hc => h2 (by rw [hc]; rfl)
  · rw [if_neg h1, if_neg h1]
    exact fun hc => h1 (by rw [hc]; rfl)

theorem getNextQuestion_eq_none_iff (bank : List Question) (s : Session)
    (rand : Nat) :
    getNextQuestion bank s rand = none ↔ availableQuestions bank s = [] := by
  unfold getNextQuestion
  dsimp only
  split
  · next hlen => simp [List.length_eq_zero.mp hlen]
  · next hlen =>
    have hne : availableQuestions bank s ≠ [] := by
      intro hc; exact hlen (by rw [hc]; rfl)
    have hpne : preferredQuestions s (availableQuestions bank s) ≠ [] :=
      preferredQuestions_ne_nil hne
    have hlt : rand % (preferredQuestions s (availableQuestions bank s)).length
        < (preferredQuestions s (availableQuestions bank s)).length :=
      Nat.mod_lt _ (List.length_pos.mpr hpne)
    rw [List.getElem?_eq_getElem hlt]
    simp [hne]

theorem getNextQuestion_some_spec {bank : List Question} {s : Session}
    {rand : Nat} {v : QuestionView}
    (h : getNextQuestion bank s rand = some v) :
    ∃ q ∈ preferredQuestions s (availableQuestions bank s), v = questionView q := by
  unfold getNextQuestion at h
  dsimp only at h
  split at h
  · exact absurd h (by simp)
  · next hlen =>
    split at h
    · next q hq =>
      exact ⟨q, List.getElem?_mem hq, (Option.some.inj h).symm⟩
    · exact absurd h (by simp)

theorem getNextQuestion_surj {bank : List Question} {s : Session}
    {q : Question}
    (h : q ∈ preferredQuestions s (availableQuestions bank s)) :
    ∃ rand, getNextQuestion bank s rand = some (questionView q) := by
  have havail : q ∈ availableQuestions bank s := mem_preferredQuestions h
  have hne : availableQuestions bank s ≠ [] := List.ne_nil_of_mem havail
  rcases List.getElem_of_mem h with ⟨i, hi, hqi⟩
  refine ⟨i, ?_⟩
  unfold getNextQuestion
  dsimp only
  rw [if_neg (by intro hc; exact hne (List.length_eq_zero.mp hc))]
  rw [Nat.mod_eq_of_lt hi, List.getElem?_eq_getElem hi, hqi]

end Quiz

/-! ## Basic lemmas about one answer-evaluation step -/

namespace Quiz

theorem scoreAnswer_correct {q : Question} {ans : String} (s : Session)
    (h : q.answer = ans) :
    scoreAnswer q ans s =
      { s with
        score := s.score + pointsOrDefault q.points
        correct := s.correct + 1
        currentStreak := s.currentStreak + 1
        currentDifficulty := min 5 (s.currentDifficulty + 1) } := by
  unfold scoreAnswer
  rw [if_pos h]

theorem scoreAnswer_wrong {q : Question} {ans : String} (s : Session)
    (h : ¬ q.answer = ans) :
    scoreAnswer q ans s =
      { s with
        wrong := s.wrong + 1
        currentStreak := 0
        currentDifficulty := max 1 (s.currentDifficulty - 1) } := by
  unfold scoreAnswer
  rw [if_neg h]

theorem evalAnswer_eq (q : Question) (ans : String) (s : Session) :
    evalAnswer q ans s =
      { scoreAnswer q ans s with
        bestStreakInGame := max (scoreAnswer q ans s).bestStreakInGame
          (scoreAnswer q ans s).currentStreak } := rfl

theorem evalAnswer_seenIds (q : Question) (ans : String) (s : Session) :
    (evalAnswer q ans s).seenIds = s.seenIds := by
  unfold evalAnswer scoreAnswer
  dsimp only
  split <;> rfl

theorem evalAnswer_userId (q : Question) (ans : String) (s : Session) :
    (evalAnswer q ans s).userId = s.userId := by
  unfold evalAnswer scoreAnswer
  dsimp only
  split <;> rfl

theorem evalAnswer_isCompleted (q : Question) (ans : String) (s : Session) :
    (evalAnswer q ans s).isCompleted = s.isCompleted := by
  unfold evalAnswer scoreAnswer
  dsimp only
  split <;> rfl

theorem evalAnswer_currentDifficulty (q : Question) (ans : String) (s : Session) :
    (evalAnswer q ans s).currentDifficulty =
      (scoreAnswer q ans s).currentDifficulty := by
  unfold evalAnswer
  dsimp only

theorem scoreAnswer_currentDifficulty (q : Question) (ans : String) (s : Session) :
    (scoreAnswer q ans s).currentDifficulty = min 5 (s.currentDifficulty + 1) ∨
    (scoreAnswer q ans s).currentDifficulty = max 1 (s.currentDifficulty - 1) := by
  unfold scoreAnswer
  split
  · exact Or.inl rfl
  · exact Or.inr rfl

theorem answerSession_guard_error {bank : List Question} {s : Session}
    {userId questionId : Nat} {ans : String} {rand : Nat}
    (h : s.userId ≠ userId ∨ s.isCompleted = true) :
    answerSession bank s userId questionId ans rand = .error .sessionUnavailable := by
  unfold answerSession
  have : (s.userId != userId || s.isCompleted) = true := by
    rcases h with h | h
    · simp [h]
    · simp [h]
  rw [if_pos this]

theorem answerSession_question_error {bank : List Question} {s : Session}
    {userId questionId : Nat} {ans : String} {rand : Nat}
    (h1 : s.userId = userId) (h2 : s.isCompleted = false)
    (hq : bank.find? (fun q => q.id == questionId) = none) :
    answerSession bank s userId questionId ans rand = .error .questionNotFound := by
  unfold answerSession
  rw [if_neg (by simp [h1, h2]), hq]

theorem answerSession_found {bank : List Question} {s : Session}
    {userId questionId : Nat} {ans : String} {rand : Nat} {question : Question}
    (h1 : s.userId = userId) (h2 : s.isCompleted = false)
    (hq : bank.find? (fun q => q.id == questionId) = some question) :
    answerSession bank s userId questionId ans rand =
      (let t := evalAnswer question ans s
       if QUIZ_LIMIT ≤ t.seenIds.length then
         .ok (.completed t.score t.correct t.wrong t.bestStreakInGame,
           { t with isCompleted := true })
       else
         match getNextQuestion bank t rand with
         | none =>
           .ok (.completed t.score t.correct t.wrong t.bestStreakInGame,
             { t with isCompleted := true })
         | some nq =>
           .ok (.next nq t.score, { t with seenIds := t.seenIds ++ [nq.id] })) := by
  unfold answerSession
  rw [if_neg (by simp [h1, h2]), hq]

theorem answerSession_ok_inv {bank : List Question} {s : Session}
    {userId questionId : Nat} {ans : String} {rand : Nat}
    {out : AnswerOutcome} {s' : Session}
    (h : answerSession bank s userId questionId ans rand = .ok (out, s')) :
    s.userId = userId ∧ s.isCompleted = false ∧
    ∃ question, bank.find? (fun q => q.id == questionId) = some question ∧
      ((QUIZ_LIMIT ≤ (evalAnswer question ans s).seenIds.length ∧
        out = .completed (evalAnswer question ans s).score
          (evalAnswer question ans s).correct (evalAnswer question ans s).wrong
          (evalAnswer question ans s).bestStreakInGame ∧
        s' = { evalAnswer question ans s with isCompleted := true }) ∨
       ((evalAnswer question ans s).seenIds.length < QUIZ_LIMIT ∧
        getNextQuestion bank (evalAnswer question ans s) rand = none ∧
        out = .completed (evalAnswer question ans s).score
          (evalAnswer question ans s).correct (evalAnswer question ans s).wrong
          (evalAnswer question ans s).bestStreakInGame ∧
        s' = { evalAnswer question ans s with isCompleted := true }) ∨
       ((evalAnswer question ans s).seenIds.length < QUIZ_LIMIT ∧
        ∃ nq, getNextQuestion bank (evalAnswer question ans s) rand = some nq ∧
          out = .next nq (evalAnswer question ans s).score ∧
          s' = { evalAnswer question ans s with
                  seenIds := (evalAnswer question ans s).seenIds ++ [nq.id] })) := by
  unfold answerSession at h
  by_cases hg : (s.userId != userId || s.isCompleted) = true
  · rw [if_pos hg] at h
    exact absurd h (by simp)
  · rw [if_neg hg] at h
    have hgp : s.userId = userId ∧ s.isCompleted = false := by
      simpa [not_or] using hg
    refine ⟨hgp.1, hgp.2, ?_⟩
    cases hq : bank.find? (fun q => q.id == questionId) with
    | none =>
      rw [hq] at h
      exact absurd h (by simp)
    | some question =>
      rw [hq] at h
      refine ⟨question, rfl, ?_⟩
      dsimp only at h
      by_cases hl : QUIZ_LIMIT ≤ (evalAnswer question ans s).seenIds.length
      · rw [if_pos hl] at h
        rcases Prod.mk.injEq .. ▸ Except.ok.inj h with ⟨ho, hs⟩
        exact Or.inl ⟨hl, ho.symm, hs.symm⟩
      · rw [if_neg hl] at h
        cases hn : getNextQuestion bank (evalAnswer question ans s) rand with
        | none =>
          rw [hn] at h
          rcases Prod.mk.injEq .. ▸ Except.ok.inj h with ⟨ho, hs⟩
          exact Or.inr (Or.inl ⟨Nat.lt_of_not_le hl, rfl, ho.symm, hs.symm⟩)
        | some nq =>
          rw [hn] at h
          rcases Prod.mk.injEq .. ▸ Except.ok.inj h with ⟨ho, hs⟩
          exact Or.inr (Or.inr ⟨Nat.lt_of_not_le hl, nq, rfl, ho.symm, hs.symm⟩)

theorem startQuiz_some_inv {bank : List Question} {userId : Nat}
    {category : Option String} {rand : Nat} {q : QuestionView} {s : Session}
    (h : startQuiz bank userId category rand = some (q, s)) :
    getNextQuestion bank (newSession userId category) rand = some q ∧
    s = { newSession userId category with seenIds := [q.id] } := by
  unfold startQuiz at h
  dsimp only at h
  cases hn : getNextQuestion bank (newSession userId category) rand with
  | none =>
    rw [hn] at h
    exact absurd h (by simp)
  | some q0 =>
    rw [hn] at h
    dsimp only at h
    rcases Prod.mk.injEq .. ▸ Option.some.inj h with ⟨hq, hs⟩
    subst hq
    exact ⟨rfl, hs.symm⟩

end Quiz

/-! ## Invariants of reachable sessions -/

namespace Quiz

theorem getNextQuestion_some_unseen {bank : List Question} {s : Session}
    {rand : Nat} {v : QuestionView}
    (h : getNextQuestion bank s rand = some v) :
    v.id ∉ s.seenIds ∧ ∃ q ∈ bank, v = questionView q := by
  rcases getNextQuestion_some_spec h with ⟨q, hq, hv⟩
  rcases mem_availableQuestions (mem_preferredQuestions hq) with ⟨hb, hc⟩
  have hnot : q.id ∉ s.seenIds := by
    simp at hc
    exact hc
  refine ⟨?_, q, hb, hv⟩
  rw [hv]
  exact hnot

theorem answerSession_ok_difficulty {bank : List Question} {s : Session}
    {userId questionId : Nat} {ans : String} {rand : Nat}
    {out : AnswerOutcome} {s' : Session}
    (h : answerSession bank s userId questionId ans rand = .ok (out, s')) :
    s'.currentDifficulty = min 5 (s.currentDifficulty + 1) ∨
    s'.currentDifficulty = max 1 (s.currentDifficulty - 1) := by
  rcases answerSession_ok_inv h with ⟨-, -, q, -, hcases⟩
  have hd : s'.currentDifficulty = (evalAnswer q ans s).currentDifficulty := by
    rcases hcases with ⟨-, -, h'⟩ | ⟨-, -, -, h'⟩ | ⟨-, nq, -, -, h'⟩ <;> rw [h']
  rw [hd, evalAnswer_currentDifficulty]
  exact scoreAnswer_currentDifficulty q ans s

theorem reachable_difficulty {bank : List Question} {s : Session}
    (h : Reachable bank s) :
    1 ≤ s.currentDifficulty ∧ s.currentDifficulty ≤ 5 := by
  induction h with
  | start userId category rand q s hst =>
    have hd : s.currentDifficulty = 3 := by
      rw [(startQuiz_some_inv hst).2]
      rfl
    omega
  | answer s userId questionId ans rand out s' hs hstep ih =>
    rcases answerSession_ok_difficulty hstep with h' | h' <;> omega

theorem reachable_seenIds {bank : List Question} {s : Session}
    (h : Reachable bank s) :
    s.seenIds.Nodup ∧ s.seenIds.length ≤ QUIZ_LIMIT := by
  induction h with
  | start userId category rand q s hst =>
    have hd : s.seenIds = [q.id] := by
      rw [(startQuiz_some_inv hst).2]
    rw [hd]
    refine ⟨by simp, by simp [QUIZ_LIMIT]⟩
  | answer s userId questionId ans rand out s' hs hstep ih =>
    rcases answerSession_ok_inv hstep with ⟨-, -, q, -, hcases⟩
    rcases hcases with ⟨-, -, h'⟩ | ⟨-, -, -, h'⟩ | ⟨hlen, nq, hnq, -, h'⟩
    · have : s'.seenIds = s.seenIds := by rw [h']; exact evalAnswer_seenIds ..
      rw [this]
      exact ih
    · have : s'.seenIds = s.seenIds := by rw [h']; exact evalAnswer_seenIds ..
      rw [this]
      exact ih
    · have hunseen : nq.id ∉ s.seenIds := by
        have := (getNextQuestion_some_unseen hnq).1
        rwa [evalAnswer_seenIds] at this
      have hseen : s'.seenIds = s.seenIds ++ [nq.id] := by
        rw [h']
        dsimp only
        rw [evalAnswer_seenIds]
      rw [evalAnswer_seenIds] at hlen
      rw [hseen]
      constructor
      · simp [List.nodup_append, hunseen, ih.1]
      · simpa using hlen

end Quiz

/-! ## Field characterizations of a successful evaluation step -/

namespace Quiz

theorem evalAnswer_fields_correct (q : Question) (ans : String) (s : Session)
    (h : q.answer = ans) :
    (evalAnswer q ans s).score = s.score + pointsOrDefault q.points ∧
    (evalAnswer q ans s).correct = s.correct + 1 ∧
    (evalAnswer q ans s).wrong = s.wrong ∧
    (evalAnswer q ans s).currentStreak = s.currentStreak + 1 ∧
    (evalAnswer q ans s).currentDifficulty = min 5 (s.currentDifficulty + 1) ∧
    (evalAnswer q ans s).bestStreakInGame =
      max s.bestStreakInGame (s.currentStreak + 1) := by
  rw [evalAnswer_eq, scoreAnswer_correct s h]
  exact ⟨rfl, rfl, rfl, rfl, rfl, rfl⟩

theorem evalAnswer_fields_wrong (q : Question) (ans : String) (s : Session)
    (h : ¬ q.answer = ans) :
    (evalAnswer q ans s).score = s.score ∧
    (evalAnswer q ans s).correct = s.correct ∧
    (evalAnswer q ans s).wrong = s.wrong + 1 ∧
    (evalAnswer q ans s).currentStreak = 0 ∧
    (evalAnswer q ans s).currentDifficulty = max 1 (s.currentDifficulty - 1) ∧
    (evalAnswer q ans s).bestStreakInGame = max s.bestStreakInGame 0 := by
  rw [evalAnswer_eq, scoreAnswer_wrong s h]
  exact ⟨rfl, rfl, rfl, rfl, rfl, rfl⟩

theorem answerSession_ok_exists {bank : List Question} {s : Session}
    {userId questionId : Nat} {q : Question} (ans : String) (rand : Nat)
    (howner : s.userId = userId) (hlive : s.isCompleted = false)
    (hfind : bank.find? (fun x => x.id == questionId) = some q) :
    ∃ out s', answerSession bank s userId questionId ans rand = .ok (out, s') ∧
      s'.score = (evalAnswer q ans s).score ∧
      s'.correct = (evalAnswer q ans s).correct ∧
      s'.wrong = (evalAnswer q ans s).wrong ∧
      s'.currentStreak = (evalAnswer q ans s).currentStreak ∧
      s'.currentDifficulty = (evalAnswer q ans s).currentDifficulty ∧
      s'.bestStreakInGame = (evalAnswer q ans s).bestStreakInGame := by
  rw [answerSession_found howner hlive hfind]
  dsimp only
  by_cases hl : QUIZ_LIMIT ≤ (evalAnswer q ans s).seenIds.length
  · rw [if_pos hl]
    exact ⟨_, _, rfl, rfl, rfl, rfl, rfl, rfl, rfl⟩
  · rw [if_neg hl]
    cases hn : getNextQuestion bank (evalAnswer q ans s) rand with
    | none => exact ⟨_, _, rfl, rfl, rfl, rfl, rfl, rfl, rfl⟩
    | some nq => exact ⟨_, _, rfl, rfl, rfl, rfl, rfl, rfl, rfl⟩

end Quiz

/-! ## Concrete fixtures used by counterexamples and witnesses -/

namespace Quiz

/-- A Science question of difficulty 3 worth the default points. -/
def qW1 : Question :=
  { id := 1, question := "Q1", options := ["A", "B"], answer := "A"
    difficulty := 3, category := some "Science", points := none }

/-- A Science question of difficulty 4 worth 5 points. -/
def qW2 : Question :=
  { id := 2, question := "Q2", options := ["A", "B"], answer := "B"
    difficulty := 4, category := some "Science", points := some 5 }

/-- A small two-question bank. -/
def bankW : List Question := [qW1, qW2]

/-- The session `startQuiz bankW 1 none 0` produces: general category,
question 1 delivered. -/
def sW : Session :=
  { userId := 1, category := "general", score := 0, correct := 0, wrong := 0
    seenIds := [1], currentDifficulty := 3, currentStreak := 0
    bestStreakInGame := 0, isCompleted := false }

/-- A question whose explicit point value is the falsy number 0. -/
def qC1 : Question :=
  { id := 1, question := "2+2?", options := ["3", "4"], answer := "4"
    difficulty := 3, category := some "Math", points := some 0 }

def bankC1 : List Question := [qC1]

/-- A live session owned by user 1 with question 1 already delivered. -/
def sC1 : Session :=
  { userId := 1, category := "general", score := 0, correct := 0, wrong := 0
    seenIds := [1], currentDifficulty := 3, currentStreak := 0
    bestStreakInGame := 0, isCompleted := false }

/-- A History-only bank. -/
def qC3 : Question :=
  { id := 1, question := "H1", options := ["A", "B"], answer := "A"
    difficulty := 3, category := some "History", points := none }

def bankC3 : List Question := [qC3]

/-- A fresh session restricted to the Science category. -/
def sC3 : Session :=
  { userId := 1, category := "Science", score := 0, correct := 0, wrong := 0
    seenIds := [], currentDifficulty := 3, currentStreak := 0
    bestStreakInGame := 0, isCompleted := false }

/-- A session of `bankW` that has advanced past question 1: question 1
was answered correctly and question 2 has since been delivered
(`seenIds = [1, 2]`). -/
def sC6 : Session :=
  { userId := 1, category := "general", score := 10, correct := 1, wrong := 0
    seenIds := [1, 2], currentDifficulty := 4, currentStreak := 1
    bestStreakInGame := 1, isCompleted := false }

/-- A store with a live session, a completed session of the same user
and a live session of another user. -/
def storeC7 : List (String × Session) :=
  [("quiz1", sW), ("quiz2", { sW with isCompleted := true }),
   ("quiz3", { sW with userId := 2 })]

end Quiz

/-! ## The claims -/

namespace Quiz

/-- C1 counterexample: in `bankC1` question 1 resolves and carries the
explicit point value 0, yet answering it correctly raises the score by
10, not by its point value 0 — JavaScript's `question.points || 10`
also replaces a present value of 0. -/
theorem claim_C1_counterexample :
    bankC1.find? (fun x => x.id == 1) = some qC1 ∧
    qC1.points = some 0 ∧
    answerSession bankC1 sC1 1 1 "4" 0 =
      .ok (.completed 10 1 0 1,
        { sC1 with score := 10, correct := 1, currentStreak := 1
                   bestStreakInGame := 1, currentDifficulty := 4
                   isCompleted := true }) ∧
    (10 : Nat) ≠ 0 + 0 := by
  decide

/-- C1 (amended): for every live, non-completed session owned by the
requester and every question identifier that resolves in the bank, one
answer-evaluation step behaves as: correctness is exact equality of the
submitted answer with the question's correct-answer value (no
normalization); if correct, the score increases by the question's point
value (10 when the question has no point value, or when its point value
is the falsy number 0), the correct count and the streak each increase
by 1, and the difficulty rises by 1 clamped at 5; if incorrect, the
wrong count increases by 1, the streak resets to 0, and the difficulty
falls by 1 clamped at 1; afterwards best-streak-in-session becomes
max(previous best, updated streak). -/
theorem claim_C1_scoring (bank : List Question) (s : Session)
    (userId questionId : Nat) (ans : String) (rand : Nat) (q : Question)
    (howner : s.userId = userId) (hlive : s.isCompleted = false)
    (hfind : bank.find? (fun x => x.id == questionId) = some q) :
    ∃ out s', answerSession bank s userId questionId ans rand = .ok (out, s') ∧
      (q.answer = ans →
        s'.score = s.score + pointsOrDefault q.points ∧
        s'.correct = s.correct + 1 ∧
        s'.wrong = s.wrong ∧
        s'.currentStreak = s.currentStreak + 1 ∧
        s'.currentDifficulty = min 5 (s.currentDifficulty + 1)) ∧
      (q.answer ≠ ans →
        s'.wrong = s.wrong + 1 ∧
        s'.correct = s.correct ∧
        s'.score = s.score ∧
        s'.currentStreak = 0 ∧
        s'.currentDifficulty = max 1 (s.currentDifficulty - 1)) ∧
      s'.bestStreakInGame = max s.bestStreakInGame s'.currentStreak := by
  rcases answerSession_ok_exists ans rand howner hlive hfind
    with ⟨out, s', heq, hsc, hco, hwr, hst, hdi, hbe⟩
  refine ⟨out, s', heq, ?_, ?_, ?_⟩
  · intro hc
    rcases evalAnswer_fields_correct q ans s hc
      with ⟨f1, f2, f3, f4, f5, -⟩
    exact ⟨hsc.trans f1, hco.trans f2, hwr.trans f3, hst.trans f4, hdi.trans f5⟩
  · intro hc
    rcases evalAnswer_fields_wrong q ans s hc
      with ⟨f1, f2, f3, f4, f5, -⟩
    exact ⟨hwr.trans f3, hco.trans f2, hsc.trans f1, hst.trans f4, hdi.trans f5⟩
  · by_cases hc : q.answer = ans
    · rcases evalAnswer_fields_correct q ans s hc
        with ⟨-, -, -, f4, -, f6⟩
      rw [hbe, f6, hst.trans f4]
    · rcases evalAnswer_fields_wrong q ans s hc
        with ⟨-, -, -, f4, -, f6⟩
      rw [hbe, f6, hst.trans f4]

/-- C1 witness: the amended theorem applied to `bankW`, session `sW`,
question 1 answered correctly. -/
theorem claim_C1_scoring_witness :
    ∃ out s', answerSession bankW sW 1 1 "A" 0 = .ok (out, s') ∧
      (qW1.answer = "A" →
        s'.score = sW.score + pointsOrDefault qW1.points ∧
        s'.correct = sW.correct + 1 ∧
        s'.wrong = sW.wrong ∧
        s'.currentStreak = sW.currentStreak + 1 ∧
        s'.currentDifficulty = min 5 (sW.currentDifficulty + 1)) ∧
      (qW1.answer ≠ "A" →
        s'.wrong = sW.wrong + 1 ∧
        s'.correct = sW.correct ∧
        s'.score = sW.score ∧
        s'.currentStreak = 0 ∧
        s'.currentDifficulty = max 1 (sW.currentDifficulty - 1)) ∧
      s'.bestStreakInGame = max sW.bestStreakInGame s'.currentStreak :=
  claim_C1_scoring bankW sW 1 1 "A" 0 qW1 (by decide) (by decide) (by decide)

end Quiz

namespace Quiz

theorem preferredQuestions_eq (s : Session) (avail : List Question) :
    preferredQuestions s avail =
      if (avail.filter (fun q => q.difficulty == s.currentDifficulty)).length = 0 then
        if (avail.filter
            (fun q => (q.difficulty - s.currentDifficulty).natAbs == 1)).length = 0 then
          avail
        else
          avail.filter (fun q => (q.difficulty - s.currentDifficulty).natAbs == 1)
      else
        avail.filter (fun q => q.difficulty == s.currentDifficulty) := by
  unfold preferredQuestions
  dsimp only
  by_cases h1 : (avail.filter (fun q => q.difficulty == s.currentDifficulty)).length = 0
  · rw [if_pos h1, if_pos h1]
  · rw [if_neg h1, if_neg h1, if_neg h1]

/-- C2 counterexample: with a Science session over a History-only bank,
the pool of unseen questions is non-empty, yet the selector returns
"none available" — so "none available exactly when the pool (the unseen
questions) is empty" fails; the category narrowing the claim omits is
what empties the candidate set. -/
theorem claim_C2_counterexample :
    bankC3.filter (fun q => !(sC3.seenIds.contains q.id)) ≠ [] ∧
    getNextQuestion bankC3 sC3 0 = none := by
  decide

/-- C2 (amended): the selector picks only from questions whose
identifier is not in the session's shown-set, further narrowed to the
session's category when that category is set and is not the "general"
sentinel; over that (possibly category-narrowed) pool the tiers are:
exact difficulty match, else difficulty distance exactly 1, else the
whole pool; the returned question is the final tier's element at the
uniformly drawn index (every tier member is returned for some draw),
and "none available" is returned exactly when the (category-narrowed)
pool is empty. -/
theorem claim_C2_selector (bank : List Question) (s : Session) (rand : Nat) :
    (getNextQuestion bank s rand = none ↔ availableQuestions bank s = []) ∧
    (∀ v, getNextQuestion bank s rand = some v →
      ∃ q ∈ preferredQuestions s (availableQuestions bank s),
        v = questionView q ∧ q.id ∉ s.seenIds) ∧
    (∀ q ∈ preferredQuestions s (availableQuestions bank s),
      ∃ r, getNextQuestion bank s r = some (questionView q)) ∧
    (∀ avail : List Question,
      (avail.filter (fun q => q.difficulty == s.currentDifficulty) ≠ [] →
        preferredQuestions s avail =
          avail.filter (fun q => q.difficulty == s.currentDifficulty)) ∧
      (avail.filter (fun q => q.difficulty == s.currentDifficulty) = [] →
        avail.filter
          (fun q => (q.difficulty - s.currentDifficulty).natAbs == 1) ≠ [] →
        preferredQuestions s avail =
          avail.filter
            (fun q => (q.difficulty - s.currentDifficulty).natAbs == 1)) ∧
      (avail.filter (fun q => q.difficulty == s.currentDifficulty) = [] →
        avail.filter
          (fun q => (q.difficulty - s.currentDifficulty).natAbs == 1) = [] →
        preferredQuestions s avail = avail)) := by
  refine ⟨getNextQuestion_eq_none_iff bank s rand, ?_, ?_, ?_⟩
  · intro v hv
    rcases getNextQuestion_some_spec hv with ⟨q, hq, hvq⟩
    have hc := (mem_availableQuestions (mem_preferredQuestions hq)).2
    refine ⟨q, hq, hvq, ?_⟩
    simp at hc
    exact hc
  · intro q hq
    exact getNextQuestion_surj hq
  · intro avail
    refine ⟨?_, ?_, ?_⟩
    · intro h1
      rw [preferredQuestions_eq,
        if_neg (fun hc => h1 (List.length_eq_zero.mp hc))]
    · intro h1 h2
      rw [preferredQuestions_eq, if_pos (by rw [h1]; rfl),
        if_neg (fun hc => h2 (List.length_eq_zero.mp hc))]
    · intro h1 h2
      rw [preferredQuestions_eq, if_pos (by rw [h1]; rfl),
        if_pos (by rw [h2]; rfl)]

/-- C2 witness: over `bankW` with session `sW` (difficulty 3, question
1 seen), question 2 — whose difficulty differs by exactly 1 — is in the
final tier and is produced by some draw. -/
theorem claim_C2_selector_witness :
    ∃ r, getNextQuestion bankW sW r = some (questionView qW2) :=
  (claim_C2_selector bankW sW 0).2.2.1 qW2 (by decide)

/-- C3: for a session whose category is truthy and not the "general"
sentinel, any question the selector returns is an unseen bank question
whose category matches case-insensitively, and a bank with no unseen
question matching the category yields "none available" rather than a
cross-category question. -/
theorem claim_C3_category_filter (bank : List Question) (s : Session)
    (rand : Nat) (hne : s.category ≠ "")
    (hgen : lowerCase s.category ≠ "general") :
    (∀ v, getNextQuestion bank s rand = some v →
      ∃ q ∈ bank, v = questionView q ∧ q.id ∉ s.seenIds ∧
        ∃ c, q.category = some c ∧ c ≠ "" ∧
          lowerCase c = lowerCase s.category) ∧
    ((∀ q ∈ bank, categoryMatchB s.category q = false) →
      getNextQuestion bank s rand = none) := by
  have hcat : (s.category != "" && lowerCase s.category != "general") = true := by
    simp [hne, hgen]
  constructor
  · intro v hv
    rcases getNextQuestion_some_spec hv with ⟨q, hq, hvq⟩
    have havail := mem_preferredQuestions hq
    rcases mem_availableQuestions havail with ⟨hb, hc⟩
    have hmatch := mem_availableQuestions_category hcat havail
    have hid : q.id ∉ s.seenIds := by
      simp at hc
      exact hc
    refine ⟨q, hb, hvq, hid, ?_⟩
    unfold categoryMatchB at hmatch
    cases hqc : q.category with
    | none => rw [hqc] at hmatch; exact absurd hmatch (by simp)
    | some c =>
      rw [hqc] at hmatch
      simp at hmatch
      exact ⟨c, rfl, hmatch.1, hmatch.2⟩
  · intro hall
    rw [getNextQuestion_eq_none_iff]
    unfold availableQuestions
    dsimp only
    rw [if_pos hcat]
    rw [List.filter_eq_nil_iff]
    intro q hq
    have hb : q ∈ bank := (List.mem_filter.mp hq).1
    simp [hall q hb]

/-- C3 witness: a Science session over a History-only bank gets no
question at all. -/
theorem claim_C3_category_filter_witness :
    getNextQuestion bankC3 sC3 0 = none :=
  (claim_C3_category_filter bankC3 sC3 0 (by decide) (by decide)).2 (by decide)

end Quiz

namespace Quiz

/-- C4: for every reachable session the shown-question set has no
duplicate identifiers and never exceeds the per-quiz limit of 20; an
answer-evaluation step that delivers a next question appends exactly
one previously unseen identifier, a step that completes leaves the set
unchanged, and once the set's length has reached 20 a successful step
marks the session completed instead of appending. -/
theorem claim_C4_seen_set :
    (∀ bank s, Reachable bank s →
      s.seenIds.Nodup ∧ s.seenIds.length ≤ QUIZ_LIMIT) ∧
    (∀ bank (s : Session) userId questionId ans rand v score s',
      answerSession bank s userId questionId ans rand = .ok (.next v score, s') →
      s'.seenIds = s.seenIds ++ [v.id] ∧
      s'.seenIds.length = s.seenIds.length + 1 ∧
      v.id ∉ s.seenIds) ∧
    (∀ bank (s : Session) userId questionId ans rand a b c d s',
      answerSession bank s userId questionId ans rand =
        .ok (.completed a b c d, s') →
      s'.seenIds = s.seenIds) ∧
    (∀ bank (s : Session) userId questionId ans rand out s',
      QUIZ_LIMIT ≤ s.seenIds.length →
      answerSession bank s userId questionId ans rand = .ok (out, s') →
      s'.isCompleted = true ∧ s'.seenIds = s.seenIds ∧
      ∃ a b c d, out = .completed a b c d) := by
  refine ⟨fun bank s h => reachable_seenIds h, ?_, ?_, ?_⟩
  · intro bank s userId questionId ans rand v score s' h
    rcases answerSession_ok_inv h with ⟨-, -, q, -, hcases⟩
    rcases hcases with ⟨-, ho, -⟩ | ⟨-, -, ho, -⟩ | ⟨-, nq, hnq, ho, h'⟩
    · exact absurd ho (by simp)
    · exact absurd ho (by simp)
    · have hv : nq = v := (AnswerOutcome.next.inj ho).1.symm
      subst hv
      have hunseen : nq.id ∉ s.seenIds := by
        have := (getNextQuestion_some_unseen hnq).1
        rwa [evalAnswer_seenIds] at this
      have hseen : s'.seenIds = s.seenIds ++ [nq.id] := by
        rw [h']
        dsimp only
        rw [evalAnswer_seenIds]
      refine ⟨hseen, ?_, hunseen⟩
      rw [hseen]
      simp
  · intro bank s userId questionId ans rand a b c d s' h
    rcases answerSession_ok_inv h with ⟨-, -, q, -, hcases⟩
    rcases hcases with ⟨-, -, h'⟩ | ⟨-, -, -, h'⟩ | ⟨-, nq, -, ho, -⟩
    · rw [h']
      exact evalAnswer_seenIds ..
    · rw [h']
      exact evalAnswer_seenIds ..
    · exact absurd ho (by simp)
  · intro bank s userId questionId ans rand out s' hfull h
    rcases answerSession_ok_inv h with ⟨-, -, q, -, hcases⟩
    rcases hcases with ⟨-, ho, h'⟩ | ⟨hlt, -, -, -⟩ | ⟨hlt, -, -, -, -⟩
    · refine ⟨by rw [h'], by rw [h']; exact evalAnswer_seenIds .., _, _, _, _, ho⟩
    · rw [evalAnswer_seenIds] at hlt
      omega
    · rw [evalAnswer_seenIds] at hlt
      omega

/-- C4 witness: instantiating the invariant at a session freshly
produced by `startQuiz` over `bankW`. -/
theorem claim_C4_seen_set_witness :
    sW.seenIds.Nodup ∧ sW.seenIds.length ≤ QUIZ_LIMIT :=
  claim_C4_seen_set.1 bankW sW
    (Reachable.start 1 none 0 (questionView qW1) sW (by decide))

/-- C5: a session's difficulty starts at 3, every reachable session
keeps it within [1, 5], and each successful answer-evaluation step
moves it by exactly +1 clamped at 5 or -1 clamped at 1. -/
theorem claim_C5_difficulty :
    (∀ userId category, (newSession userId category).currentDifficulty = 3) ∧
    (∀ bank s, Reachable bank s →
      1 ≤ s.currentDifficulty ∧ s.currentDifficulty ≤ 5) ∧
    (∀ bank (s : Session) userId questionId ans rand out s',
      answerSession bank s userId questionId ans rand = .ok (out, s') →
      s'.currentDifficulty = min 5 (s.currentDifficulty + 1) ∨
      s'.currentDifficulty = max 1 (s.currentDifficulty - 1)) :=
  ⟨fun _ _ => rfl,
   fun _ _ h => reachable_difficulty h,
   fun _ _ _ _ _ _ _ _ h => answerSession_ok_difficulty h⟩

/-- The session `sW` after one wrong answer to question 1 (question 2
delivered next). -/
def sC5 : Session :=
  { sW with wrong := 1, currentDifficulty := 2, seenIds := [1, 2] }

/-- C5 witness: the bounds instantiated at a session freshly produced
by `startQuiz` over `bankW`, stepped once through a wrong answer. -/
theorem claim_C5_difficulty_witness :
    1 ≤ sC5.currentDifficulty ∧ sC5.currentDifficulty ≤ 5 :=
  claim_C5_difficulty.2.1 bankW sC5
    (Reachable.answer sW 1 1 "B" 0 (.next (questionView qW2) 0) sC5
      (Reachable.start 1 none 0 (questionView qW1) sW (by decide))
      (by decide))

end Quiz

namespace Quiz

/-- C6 counterexample: session `sC6` has advanced past question 1
(`seenIds = [1, 2]`, question 2 delivered later), yet re-submitting an
answer for question 1 is accepted and fully re-scored — the score rises
from 10 to 20 and the counters move — instead of being rejected as an
InvalidState no-op. -/
theorem claim_C6_counterexample :
    (1 : Nat) ∈ sC6.seenIds ∧ sC6.seenIds.getLast? ≠ some 1 ∧
    answerSession bankW sC6 1 1 "A" 0 =
      .ok (.completed 20 2 0 2,
        { sC6 with score := 20, correct := 2, currentStreak := 2
                   bestStreakInGame := 2, currentDifficulty := 5
                   isCompleted := true }) ∧
    (20 : Nat) ≠ sC6.score := by
  decide

/-- C6 (amended): once a session has advanced past a question, a second
submission naming that question's identifier is not rejected: the
shown-set is never consulted, the step succeeds, exactly one more
answer is counted, and on a correct answer the question's points are
granted again (double-counting); exactly-once evaluation is the
caller's burden. -/
theorem claim_C6_resubmission (bank : List Question) (s : Session)
    (userId questionId : Nat) (ans : String) (rand : Nat) (q : Question)
    (howner : s.userId = userId) (hlive : s.isCompleted = false)
    (hfind : bank.find? (fun x => x.id == questionId) = some q)
    (_hseen : questionId ∈ s.seenIds) :
    ∃ out s', answerSession bank s userId questionId ans rand = .ok (out, s') ∧
      s'.correct + s'.wrong = s.correct + s.wrong + 1 ∧
      (q.answer = ans → s'.score = s.score + pointsOrDefault q.points) := by
  rcases answerSession_ok_exists ans rand howner hlive hfind
    with ⟨out, s', heq, hsc, hco, hwr, -, -, -⟩
  refine ⟨out, s', heq, ?_, ?_⟩
  · by_cases hc : q.answer = ans
    · rcases evalAnswer_fields_correct q ans s hc
        with ⟨-, f2, f3, -, -, -⟩
      rw [hco.trans f2, hwr.trans f3]
      omega
    · rcases evalAnswer_fields_wrong q ans s hc
        with ⟨-, f2, f3, -, -, -⟩
      rw [hco.trans f2, hwr.trans f3]
      omega
  · intro hc
    rcases evalAnswer_fields_correct q ans s hc
      with ⟨f1, -, -, -, -, -⟩
    exact hsc.trans f1

/-- C6 witness: the amended theorem applied to `sC6` with question 2,
which is also already in the shown-set. -/
theorem claim_C6_resubmission_witness :
    ∃ out s', answerSession bankW sC6 1 2 "B" 0 = .ok (out, s') ∧
      s'.correct + s'.wrong = sC6.correct + sC6.wrong + 1 ∧
      (qW2.answer = "B" → s'.score = sC6.score + pointsOrDefault qW2.points) :=
  claim_C6_resubmission bankW sC6 1 2 "B" 0 qW2
    (by decide) (by decide) (by decide) (by decide)

/-- C7 counterexample: an unknown session identifier, a session owned
by another user and an already-completed session all produce the same
failure — one combined 404 with the identical message — so the three
precondition violations are not reported as distinct failure
conditions. -/
theorem claim_C7_counterexample :
    postAnswer bankW storeC7 "nope" 1 1 "A" 0 =
      (.error .sessionUnavailable, storeC7) ∧
    postAnswer bankW storeC7 "quiz3" 1 1 "A" 0 =
      (.error .sessionUnavailable, storeC7) ∧
    postAnswer bankW storeC7 "quiz2" 1 1 "A" 0 =
      (.error .sessionUnavailable, storeC7) ∧
    answerErrorMessage .sessionUnavailable =
      "Quiz session not found, not yours, or already completed." := by
  decide

/-- C7 (amended): every precondition violation of the answer route
aborts the evaluation with the store unchanged; an unknown session, a
session owned by a different user and an already-completed session are
reported as one combined failure, which is distinct only from the
unknown-question failure. -/
theorem claim_C7_preconditions (bank : List Question)
    (sessions : List (String × Session)) (quizId : String)
    (userId questionId : Nat) (ans : String) (rand : Nat) :
    (lookupSession sessions quizId = none →
      postAnswer bank sessions quizId userId questionId ans rand =
        (.error .sessionUnavailable, sessions)) ∧
    (∀ s, lookupSession sessions quizId = some s → s.userId ≠ userId →
      postAnswer bank sessions quizId userId questionId ans rand =
        (.error .sessionUnavailable, sessions)) ∧
    (∀ s, lookupSession sessions quizId = some s → s.isCompleted = true →
      postAnswer bank sessions quizId userId questionId ans rand =
        (.error .sessionUnavailable, sessions)) ∧
    (∀ s, lookupSession sessions quizId = some s → s.userId = userId →
      s.isCompleted = false →
      bank.find? (fun q => q.id == questionId) = none →
      postAnswer bank sessions quizId userId questionId ans rand =
        (.error .questionNotFound, sessions)) ∧
    AnswerError.sessionUnavailable ≠ AnswerError.questionNotFound := by
  refine ⟨?_, ?_, ?_, ?_, by simp⟩
  · intro h
    unfold postAnswer
    rw [h]
  · intro s hl ho
    unfold postAnswer
    rw [hl]
    dsimp only
    rw [answerSession_guard_error (Or.inl ho)]
  · intro s hl hc
    unfold postAnswer
    rw [hl]
    dsimp only
    rw [answerSession_guard_error (Or.inr hc)]
  · intro s hl ho hc hq
    unfold postAnswer
    rw [hl]
    dsimp only
    rw [answerSession_question_error ho hc hq]

/-- C7 witness: the no-mutation abort instantiated at an unknown
session identifier against `storeC7`. -/
theorem claim_C7_preconditions_witness :
    postAnswer bankW storeC7 "missing" 1 1 "A" 0 =
      (.error .sessionUnavailable, storeC7) :=
  (claim_C7_preconditions bankW storeC7 "missing" 1 1 "A" 0).1 (by decide)

end Quiz

namespace Quiz

theorem lookupSession_filter_ne (sessions : List (String × Session))
    (quizId : String) :
    lookupSession (sessions.filter (fun p => p.1 != quizId)) quizId = none := by
  unfold lookupSession
  rw [List.find?_eq_none.mpr]
  · rfl
  · intro p hp
    have := (List.mem_filter.mp hp).2
    simp at this ⊢
    exact this

/-- C8 (spec-modelled): deleting a session as its owner acknowledges
and removes it from the store; repeating the delete with the same
identifier then reports NOT_FOUND. -/
theorem claim_C8_delete (sessions : List (String × Session))
    (quizId : String) (userId : Nat) (s : Session)
    (hlook : lookupSession sessions quizId = some s)
    (howner : s.userId = userId) :
    deleteSession sessions quizId userId =
      (.ack, sessions.filter (fun p => p.1 != quizId)) ∧
    lookupSession (sessions.filter (fun p => p.1 != quizId)) quizId = none ∧
    (deleteSession (sessions.filter (fun p => p.1 != quizId)) quizId
      userId).1 = .notFound := by
  refine ⟨?_, lookupSession_filter_ne sessions quizId, ?_⟩
  · unfold deleteSession
    rw [hlook]
    dsimp only
    rw [if_pos howner]
  · unfold deleteSession
    rw [lookupSession_filter_ne sessions quizId]

/-- C8 witness: deleting `quiz1` from `storeC7` as user 1 succeeds
once and fails the second time. -/
theorem claim_C8_delete_witness :
    deleteSession storeC7 "quiz1" 1 =
      (.ack, storeC7.filter (fun p => p.1 != "quiz1")) ∧
    lookupSession (storeC7.filter (fun p => p.1 != "quiz1")) "quiz1" = none ∧
    (deleteSession (storeC7.filter (fun p => p.1 != "quiz1")) "quiz1" 1).1 =
      .notFound :=
  claim_C8_delete storeC7 "quiz1" 1 sW (by decide) (by decide)

/-- C9: the stats aggregator folds a completed session into the user's
durable record additively (games played +1; score, correct and wrong
each increased by the session's values; best streak maximised), and
with upsert semantics an absent record is created holding exactly these
session values as initial values. -/
theorem claim_C9_stats_fold (s : Session) (r : StatsRecord) :
    updateOverallStats (some r) s =
      { gamesPlayed := r.gamesPlayed + 1
        totalScore := r.totalScore + s.score
        totalCorrect := r.totalCorrect + s.correct
        totalWrong := r.totalWrong + s.wrong
        bestStreak := max r.bestStreak s.bestStreakInGame } ∧
    updateOverallStats none s =
      { gamesPlayed := 1
        totalScore := s.score
        totalCorrect := s.correct
        totalWrong := s.wrong
        bestStreak := s.bestStreakInGame } := by
  constructor
  · rfl
  · unfold updateOverallStats
    simp

/-- C10: for a live session owned by the requester, the answer route
fails with the question-not-found error exactly when the identifier
does not resolve in the bank; whenever it does resolve — whether or not
the identifier is in the session's shown-set, which is never consulted
— the step succeeds and applies the full scoring update. -/
theorem claim_C10_no_membership_check (bank : List Question) (s : Session)
    (userId questionId : Nat) (ans : String) (rand : Nat)
    (howner : s.userId = userId) (hlive : s.isCompleted = false) :
    (answerSession bank s userId questionId ans rand =
        .error .questionNotFound ↔
      bank.find? (fun q => q.id == questionId) = none) ∧
    (∀ q, bank.find? (fun x => x.id == questionId) = some q →
      ∃ out s', answerSession bank s userId questionId ans rand =
          .ok (out, s') ∧
        s'.score = (evalAnswer q ans s).score ∧
        s'.correct = (evalAnswer q ans s).correct ∧
        s'.wrong = (evalAnswer q ans s).wrong ∧
        s'.currentStreak = (evalAnswer q ans s).currentStreak ∧
        s'.currentDifficulty = (evalAnswer q ans s).currentDifficulty ∧
        s'.bestStreakInGame = (evalAnswer q ans s).bestStreakInGame) := by
  constructor
  · constructor
    · intro h
      cases hq : bank.find? (fun x => x.id == questionId) with
      | none => rfl
      | some q =>
        rcases answerSession_ok_exists ans rand howner hlive hq
          with ⟨out, s', heq, -⟩
        rw [heq] at h
        exact absurd h (by simp)
    · intro h
      exact answerSession_question_error howner hlive h
  · intro q hq
    exact answerSession_ok_exists ans rand howner hlive hq

/-- C10 witness: question 1 resolves in `bankW` even though session
`sC6` has already advanced past it, and the step fully re-scores it. -/
theorem claim_C10_no_membership_check_witness :
    ∃ out s', answerSession bankW sC6 1 1 "A" 1 = .ok (out, s') ∧
      s'.score = (evalAnswer qW1 "A" sC6).score ∧
      s'.correct = (evalAnswer qW1 "A" sC6).correct ∧
      s'.wrong = (evalAnswer qW1 "A" sC6).wrong ∧
      s'.currentStreak = (evalAnswer qW1 "A" sC6).currentStreak ∧
      s'.currentDifficulty = (evalAnswer qW1 "A" sC6).currentDifficulty ∧
      s'.bestStreakInGame = (evalAnswer qW1 "A" sC6).bestStreakInGame :=
  (claim_C10_no_membership_check bankW sC6 1 1 "A" 1
    (by decide) (by decide)).2 qW1 (by decide)

end Quiz
